import Mathlib

/-!
Shallow embedding of the internal messaging subsystem of the wells backend.

The definitions below are translated from the messages controller
(getAllowedRecipients, getConversations, getConversationMessages,
sendMessage, markAsRead, deleteConversation, getUnreadCount) and from the
Message mongoose model.  Object ids are modelled as Nat, timestamps as Nat,
and the message collection as a list of records.  MongoDB query predicates
are translated with their documented semantics: a filter with two separate
conditions on the same array field matches a document when EACH condition is
satisfied by SOME array element, not necessarily the same one (no elemMatch
is used anywhere in the source).
-/

/-- Role constants from utils/constants. -/
def SUPER_ADMIN : String := "super_admin"

def ADMIN : String := "admin"

def PROJECT_MANAGER : String := "project_manager"

def CONTRACTOR : String := "contractor"

/-- A user document, restricted to the fields the messaging code reads. -/
structure UserRec where
  id : Nat
  role : String
  isActive : Bool
deriving DecidableEq, Repr

/-- A project document, restricted to the two assignment fields. -/
structure ProjectRec where
  projectManager : Option Nat
  contractor : Option Nat
deriving DecidableEq, Repr

/-- Per-recipient read state embedded in a message (messageRecipientSchema). -/
structure RecipientState where
  recipient : Nat
  isRead : Bool
  readAt : Option Nat
deriving DecidableEq, Repr

/-- A per-user soft-delete marker (an entry of deletedBy). -/
structure DeletedEntry where
  user : Nat
  deletedAt : Nat
deriving DecidableEq, Repr

/-- A message document (messageSchema). -/
structure Message where
  id : Nat
  sender : Nat
  recipients : List RecipientState
  subject : String
  body : String
  threadId : Option Nat
  isDeleted : Bool
  deletedBy : List DeletedEntry
  createdAt : Nat
deriving DecidableEq, Repr

/-- getAllowedRecipients from the messages controller, lines 8-54: admins may
message every active user; a project manager may message active admins plus
the active contractors of projects they manage; a contractor may message
active admins plus the active project managers of projects assigned to them;
every other role gets an empty list. -/
def getAllowedRecipients (u : UserRec) (users : List UserRec) (projects : List ProjectRec) :
    List UserRec :=
  if u.role == SUPER_ADMIN || u.role == ADMIN then
    users.filter (fun x => x.isActive)
  else if u.role == PROJECT_MANAGER then
    let admins := users.filter (fun x => (x.role == SUPER_ADMIN || x.role == ADMIN) && x.isActive)
    let contractorIds :=
      ((projects.filter (fun p => p.projectManager == some u.id)).filterMap
        (fun p => p.contractor)).eraseDups
    admins ++ (if contractorIds.isEmpty then []
      else users.filter (fun x => contractorIds.contains x.id && x.isActive))
  else if u.role == CONTRACTOR then
    let admins := users.filter (fun x => (x.role == SUPER_ADMIN || x.role == ADMIN) && x.isActive)
    let pmIds :=
      ((projects.filter (fun p => p.contractor == some u.id)).filterMap
        (fun p => p.projectManager)).eraseDups
    admins ++ (if pmIds.isEmpty then []
      else users.filter (fun x => pmIds.contains x.id && x.isActive))
  else []

/-- The visibility filter of getConversations (controller lines 64-68):
sender or recipient, not hard-deleted, and not soft-deleted by this user. -/
def visibleTo (u : Nat) (m : Message) : Bool :=
  (m.sender == u || m.recipients.any (fun r => r.recipient == u))
    && !m.isDeleted
    && !(m.deletedBy.any (fun d => d.user == u))

/-- Thread-membership test used by getConversationMessages, markAsRead and
deleteConversation: the message is the thread root or names it as threadId. -/
def inThread (tid : Nat) (m : Message) : Bool :=
  m.id == tid || m.threadId == some tid

/-- Ordering relation of the message fetch in getConversations, line 71:
sort by createdAt descending.  A stable sort models the cursor order. -/
def msgGe (a b : Message) : Prop := b.createdAt ≤ a.createdAt

instance : DecidableRel msgGe := fun a b => Nat.decLe b.createdAt a.createdAt

instance : IsTotal Message msgGe := ⟨fun a b => Nat.le_total b.createdAt a.createdAt⟩

instance : IsTrans Message msgGe := ⟨fun _ _ _ h1 h2 => Nat.le_trans h2 h1⟩

/-- Ordering relation of the message fetch in getConversationMessages,
line 168: sort by createdAt ascending. -/
def msgLe (a b : Message) : Prop := a.createdAt ≤ b.createdAt

instance : DecidableRel msgLe := fun a b => Nat.decLe a.createdAt b.createdAt

instance : IsTotal Message msgLe := ⟨fun a b => Nat.le_total a.createdAt b.createdAt⟩

instance : IsTrans Message msgLe := ⟨fun _ _ _ h1 h2 => Nat.le_trans h1 h2⟩

/-- The grouping key computed in getConversations, lines 79-89.  In the
source the key is a string: the threadId rendered as hex when present, else
the sorted participant ids joined with a dash.  A hex object id never
contains a dash and a joined key always does, so the two classes of keys can
never collide and the key is modelled as a sum type. -/
inductive ConvKey
  | thread (t : Nat)
  | participants (ps : List Nat)
deriving DecidableEq, BEq, Repr

/-- conversationKey of a message: threadId when present, else the sorted
participant list (sender plus all recipients, no dedup in the source). -/
def conversationKey (m : Message) : ConvKey :=
  match m.threadId with
  | some t => ConvKey.thread t
  | none =>
      ConvKey.participants
        (List.insertionSort (fun a b : Nat => a ≤ b)
          (m.sender :: m.recipients.map (fun r => r.recipient)))

/-- One conversation summary as built by getConversations, lines 103-112.
lastId models the _id field of the summary (the id of the most recent
message of the group). -/
structure Conv where
  lastId : Nat
  threadId : Nat
  subject : String
  lastMessage : String
  lastMessageAt : Nat
  participants : List Nat
  unreadCount : Nat
  isSender : Bool
deriving DecidableEq, Repr

/-- The other participants of a group, lines 93-95: the recipients when the
user is the sender, else the sender plus the recipients other than the user. -/
def otherParticipants (u : Nat) (m : Message) : List Nat :=
  if m.sender == u then m.recipients.map (fun r => r.recipient)
  else m.sender :: (m.recipients.filter (fun r => !(r.recipient == u))).map (fun r => r.recipient)

/-- Initial unread count of a fresh group, lines 97-101. -/
def initialUnread (u : Nat) (m : Message) : Nat :=
  if m.sender == u then 0
  else
    match m.recipients.find? (fun r => r.recipient == u) with
    | some r => if r.isRead then 0 else 1
    | none => 0

/-- A fresh group entry, lines 103-112. -/
def initConv (u : Nat) (m : Message) : Conv :=
  { lastId := m.id
    threadId := match m.threadId with | some t => t | none => m.id
    subject := m.subject
    lastMessage := m.body
    lastMessageAt := m.createdAt
    participants := otherParticipants u m
    unreadCount := initialUnread u m
    isSender := m.sender == u }

/-- Folding one more message into an existing group, lines 113-125. -/
def updateConv (u : Nat) (m : Message) (c : Conv) : Conv :=
  let c1 :=
    if c.lastMessageAt < m.createdAt then
      { c with lastMessage := m.body, lastMessageAt := m.createdAt, lastId := m.id }
    else c
  if m.sender == u then c1
  else
    match m.recipients.find? (fun r => r.recipient == u) with
    | some r => if r.isRead then c1 else { c1 with unreadCount := c1.unreadCount + 1 }
    | none => c1

/-- One step of the grouping fold over the visible messages, lines 77-127.
The JavaScript Map preserves insertion order, so it is modelled as an
association list to which new keys are appended at the end. -/
def groupStep (u : Nat) (acc : List (ConvKey × Conv)) (m : Message) : List (ConvKey × Conv) :=
  let k := conversationKey m
  if acc.any (fun p => p.1 == k) then
    acc.map (fun p => if p.1 == k then (p.1, updateConv u m p.2) else p)
  else acc ++ [(k, initConv u m)]

/-- Ordering of the final conversation list, line 130: by lastMessageAt
descending.  The source comparator reads no other field and the JavaScript
sort is stable. -/
def convGe (a b : Conv) : Prop := b.lastMessageAt ≤ a.lastMessageAt

instance : DecidableRel convGe := fun a b => Nat.decLe b.lastMessageAt a.lastMessageAt

instance : IsTotal Conv convGe := ⟨fun a b => Nat.le_total b.lastMessageAt a.lastMessageAt⟩

instance : IsTrans Conv convGe := ⟨fun _ _ _ h1 h2 => Nat.le_trans h2 h1⟩

/-- getConversations, lines 57-147: filter the visible messages, order by
createdAt descending, fold into groups, order the groups by lastMessageAt
descending and paginate with skip = (page - 1) * limit (the paginate
helper) and slice(skip, skip + limit). -/
def getConversations (u page limit : Nat) (store : List Message) : List Conv :=
  let skip := (page - 1) * limit
  let msgs := List.insertionSort msgGe (store.filter (fun m => visibleTo u m))
  let groups := msgs.foldl (groupStep u) []
  let convs := List.insertionSort convGe (groups.map (fun p => p.2))
  (convs.drop skip).take limit

/-- The fetch filter of getConversationMessages, lines 156-165: in the
thread, not hard-deleted, not soft-deleted by the user, and the user is
sender or recipient. -/
def threadVisible (u tid : Nat) (m : Message) : Bool :=
  inThread tid m
    && !m.isDeleted
    && !(m.deletedBy.any (fun d => d.user == u))
    && (m.sender == u || m.recipients.any (fun r => r.recipient == u))

/-- The query and response part of getConversationMessages, lines 150-173 and
190: fetch the visible thread messages sorted by createdAt ascending and
answer 404 when the result is empty. -/
def getConversationMessages (u tid : Nat) (store : List Message) :
    Except String (List Message) :=
  let msgs := List.insertionSort msgLe (store.filter (fun m => threadVisible u tid m))
  if msgs.isEmpty then Except.error "Conversation not found" else Except.ok msgs

/-- The filter of the markAsRead updateMany, lines 269-274.  The two
recipient conditions are separate top-level conditions on the same array, so
each may be satisfied by a different entry: the document matches when the
user appears among the recipients and SOME entry (of any recipient) is
unread. -/
def markFilter (u tid : Nat) (m : Message) : Bool :=
  inThread tid m
    && m.recipients.any (fun r => r.recipient == u)
    && m.recipients.any (fun r => !r.isRead)

/-- The positional update of lines 276-280: the positional operator writes
the single entry whose index was recorded while matching, which for this
query shape is the first entry satisfying the last array condition, that is
the first entry with isRead false; elemMatch is not used in the source. -/
def markFirstUnread (now : Nat) : List RecipientState → List RecipientState
  | [] => []
  | r :: rs =>
      if r.isRead then r :: markFirstUnread now rs
      else { r with isRead := true, readAt := some now } :: rs

/-- markAsRead, lines 264-287: updateMany over the thread with the filter
above, setting the positionally selected entry to read. -/
def markAsRead (u tid now : Nat) (store : List Message) : List Message :=
  store.map (fun m =>
    if markFilter u tid m then { m with recipients := markFirstUnread now m.recipients }
    else m)

/-- The trim applied by sendMessage and by the schema: drop leading and
trailing whitespace.  Defined over the character list so that it evaluates
inside the kernel. -/
def jsTrim (s : String) : String :=
  String.mk (((s.data.dropWhile Char.isWhitespace).reverse.dropWhile Char.isWhitespace).reverse)

/-- Outcome of sendMessage: a 400 validation response, a 403 response, or
the created message. -/
inductive SendOutcome
  | validation (msg : String)
  | forbidden (msg : String)
  | created (m : Message)
deriving DecidableEq, Repr

/-- The message document built by sendMessage, lines 241-252: recipients are
the proposed ids with the sender filtered out and duplicates removed keeping
first occurrences (a JavaScript Set), each starting unread; subject and body
are trimmed; the supplied threadId is stored as given. -/
def mkMessage (newId : Nat) (actor : UserRec) (recipients : List Nat)
    (subject body : String) (tid : Option Nat) (now : Nat) : Message :=
  { id := newId
    sender := actor.id
    recipients := ((recipients.filter (fun r => r != actor.id)).eraseDups).map
      (fun r => { recipient := r, isRead := false, readAt := none })
    subject := jsTrim subject
    body := jsTrim body
    threadId := tid
    isDeleted := false
    deletedBy := []
    createdAt := now }

/-- sendMessage, lines 207-261, in source order: reject an empty recipient
list, an empty trimmed subject, an empty trimmed body; then reject with 403
when any proposed recipient (the full list, before self-removal) is outside
the allowed set; then drop the sender from the list, dedup, and reject with
400 when nothing remains; otherwise append the new message to the store.
No check of any kind is made on threadId. -/
def sendMessage (actor : UserRec) (users : List UserRec) (projects : List ProjectRec)
    (recipients : List Nat) (subject body : String) (tid : Option Nat)
    (store : List Message) (newId now : Nat) : SendOutcome × List Message :=
  if recipients.isEmpty then
    (SendOutcome.validation "At least one recipient is required", store)
  else if jsTrim subject == "" then
    (SendOutcome.validation "Subject is required", store)
  else if jsTrim body == "" then
    (SendOutcome.validation "Message body is required", store)
  else
    let allowedIds := (getAllowedRecipients actor users projects).map (fun x => x.id)
    let invalid := recipients.filter (fun r => !(allowedIds.contains r))
    if !invalid.isEmpty then
      (SendOutcome.forbidden "You are not allowed to message one or more of the selected recipients",
        store)
    else
      let uniqueRecipients := (recipients.filter (fun r => r != actor.id)).eraseDups
      if uniqueRecipients.isEmpty then
        (SendOutcome.validation "You cannot send a message to yourself", store)
      else
        (SendOutcome.created (mkMessage newId actor recipients subject body tid now),
          store ++ [mkMessage newId actor recipients subject body tid now])

/-- The membership filter of the find in deleteConversation, lines 300-307:
in the thread and the acting user is sender or recipient; note that neither
isDeleted nor deletedBy is consulted there. -/
def threadMember (u tid : Nat) (m : Message) : Bool :=
  inThread tid m && (m.sender == u || m.recipients.any (fun r => r.recipient == u))

/-- Appending one soft-delete marker to a message (the push of lines
318-325). -/
def pushDeleted (u t : Nat) (m : Message) : Message :=
  { m with deletedBy := m.deletedBy ++ [{ user := u, deletedAt := t }] }

/-- The updateMany of deleteConversation, lines 314-326: push a marker onto
EVERY message of the thread (the update filter has no visibility condition). -/
def applyDelete (a tid t : Nat) (store : List Message) : List Message :=
  store.map (fun m => if inThread tid m then pushDeleted a t m else m)

/-- Outcome of deleteConversation. -/
inductive DelOutcome
  | forbidden
  | notFound
  | ok
deriving DecidableEq, Repr

/-- deleteConversation, lines 290-332: only a super admin may delete; 404
when no thread message has the actor as sender or recipient; otherwise push
a soft-delete marker for the actor onto every thread message. -/
def deleteConversation (actor : UserRec) (tid now : Nat) (store : List Message) :
    DelOutcome × List Message :=
  if actor.role == SUPER_ADMIN then
    if (store.filter (fun m => threadMember actor.id tid m)).isEmpty then
      (DelOutcome.notFound, store)
    else (DelOutcome.ok, applyDelete actor.id tid now store)
  else (DelOutcome.forbidden, store)

/-- getUnreadCount, lines 335-350: countDocuments with four conditions; the
two recipient conditions are separate conditions on the same array and may
be satisfied by different entries. -/
def getUnreadCount (u : Nat) (store : List Message) : Nat :=
  store.countP (fun m =>
    m.recipients.any (fun r => r.recipient == u)
      && m.recipients.any (fun r => !r.isRead)
      && !m.isDeleted
      && !(m.deletedBy.any (fun d => d.user == u)))

/-- Modelled from the spec: the unread count as the specification words it,
namely the number of messages visible to the user in which THE USER OWN
recipient entry is unread.  Stated only to be compared with getUnreadCount. -/
def specUnreadCount (u : Nat) (store : List Message) : Nat :=
  store.countP (fun m =>
    visibleTo u m && m.recipients.any (fun r => r.recipient == u && !r.isRead))

/-- The projection of a message onto every field other than the soft-delete
markers; used to state that soft deletion by one user changes nothing that
another user can read. -/
structure MsgView where
  id : Nat
  sender : Nat
  recipients : List RecipientState
  subject : String
  body : String
  threadId : Option Nat
  isDeleted : Bool
  createdAt : Nat
deriving DecidableEq, Repr

/-- view of a message: everything except deletedBy. -/
def view (m : Message) : MsgView :=
  { id := m.id
    sender := m.sender
    recipients := m.recipients
    subject := m.subject
    body := m.body
    threadId := m.threadId
    isDeleted := m.isDeleted
    createdAt := m.createdAt }

/-! ## Claim theorems -/

/-- C1: a root message (threadId null) and a reply naming it as threadId,
both visible to the user, are placed in TWO different conversation groups by
getConversations: the root is keyed by its participant signature while the
reply is keyed by the root id, so the claimed common grouping fails. -/
theorem getConversations_splits_reply_from_root :
    (getConversations 10 1 20
        [⟨1, 10, [⟨20, false, none⟩], "s", "b", none, false, [], 0⟩,
         ⟨2, 20, [⟨10, false, none⟩], "s", "r", some 1, false, [], 1⟩]).length = 2
    ∧ conversationKey ⟨1, 10, [⟨20, false, none⟩], "s", "b", none, false, [], 0⟩
        ≠ conversationKey ⟨2, 20, [⟨10, false, none⟩], "s", "r", some 1, false, [], 1⟩
    ∧ visibleTo 10 ⟨1, 10, [⟨20, false, none⟩], "s", "b", none, false, [], 0⟩ = true
    ∧ visibleTo 10 ⟨2, 20, [⟨10, false, none⟩], "s", "r", some 1, false, [], 1⟩ = true := by
  decide

/-- C2: getUnreadCount counts a message in which the calling user own entry
is already read, because the two recipient conditions of the query are
satisfied by different array entries; the count the specification describes
is 0 for the same store. -/
theorem getUnreadCount_counts_other_recipients_unread :
    getUnreadCount 1
        [⟨1, 9, [⟨1, true, some 5⟩, ⟨2, false, none⟩], "s", "b", none, false, [], 0⟩] = 1
    ∧ specUnreadCount 1
        [⟨1, 9, [⟨1, true, some 5⟩, ⟨2, false, none⟩], "s", "b", none, false, [], 0⟩] = 0 := by
  decide

/-- C3: markAsRead called by user 1 on a message whose entry for user 1 is
already read still matches the update filter (some other entry is unread)
and flips the entry of user 2, another recipient, setting readAt there;
the claim that only the calling user own unread entries are ever touched
fails. -/
theorem markAsRead_modifies_other_recipients_entry :
    markAsRead 1 1 99
        [⟨1, 9, [⟨2, false, none⟩, ⟨1, true, some 7⟩], "s", "b", none, false, [], 0⟩]
      = [⟨1, 9, [⟨2, true, some 99⟩, ⟨1, true, some 7⟩], "s", "b", none, false, [], 0⟩] := by
  decide

/-- C4 counterexample: sendMessage with a threadId that resolves to no
message at all (the store is empty) succeeds and stores the message with the
dangling threadId 999, instead of failing with a validation error. -/
theorem sendMessage_dangling_threadId_accepted :
    (sendMessage ⟨1, "admin", true⟩ [⟨1, "admin", true⟩, ⟨2, "contractor", true⟩] []
        [2] "s" "b" (some 999) [] 7 3)
      = (SendOutcome.created ⟨7, 1, [⟨2, false, none⟩], "s", "b", some 999, false, [], 3⟩,
         [⟨7, 1, [⟨2, false, none⟩], "s", "b", some 999, false, [], 3⟩])
    ∧ ([] : List Message).filter (fun m => m.id == 999) = [] := by
  decide

/-- C5 counterexample: two soft deletes of the same thread by the same super
admin leave a store different from the store after one delete: the deletedBy
list of the message holds the acting user twice. -/
theorem deleteConversation_twice_duplicates_marker :
    (deleteConversation ⟨1, "super_admin", true⟩ 1 20
        ((deleteConversation ⟨1, "super_admin", true⟩ 1 10
          [⟨1, 1, [⟨2, false, none⟩], "s", "b", none, false, [], 0⟩]).2)).2
      ≠ (deleteConversation ⟨1, "super_admin", true⟩ 1 10
          [⟨1, 1, [⟨2, false, none⟩], "s", "b", none, false, [], 0⟩]).2
    ∧ ((deleteConversation ⟨1, "super_admin", true⟩ 1 20
        ((deleteConversation ⟨1, "super_admin", true⟩ 1 10
          [⟨1, 1, [⟨2, false, none⟩], "s", "b", none, false, [], 0⟩]).2)).2).map
        (fun m => m.deletedBy.countP (fun d => d.user == 1)) = [2] := by
  decide

/-- C6 counterexample: a project manager proposing themself along with one
eligible admin receives the 403 forbidden outcome, because eligibility is
checked on the full list before the self id is removed and a project manager
is not in their own eligible set; the claim that a self proposal is silently
dropped and never by itself causes the forbidden error fails. -/
theorem sendMessage_self_triggers_forbidden :
    (sendMessage ⟨30, "project_manager", true⟩
        [⟨30, "project_manager", true⟩, ⟨40, "admin", true⟩] []
        [30, 40] "s" "b" none [] 7 3).1
      = SendOutcome.forbidden "You are not allowed to message one or more of the selected recipients"
    ∧ ((getAllowedRecipients ⟨30, "project_manager", true⟩
        [⟨30, "project_manager", true⟩, ⟨40, "admin", true⟩] []).map (fun x => x.id)).contains 40
        = true
    ∧ ([30, 40].filter (fun r => r != (30 : Nat))) = [40] := by
  decide

/-- C7 counterexample: two visible root messages with the same timestamp
form two groups whose order in getConversations is ascending by id, not the
claimed descending-by-id tie break, while their last timestamps are equal. -/
theorem getConversations_tie_not_id_desc :
    (getConversations 10 1 20
        [⟨1, 10, [⟨20, false, none⟩], "s", "b", none, false, [], 5⟩,
         ⟨2, 10, [⟨30, false, none⟩], "s", "b", none, false, [], 5⟩]).map (fun c => c.lastId)
      = [1, 2]
    ∧ (getConversations 10 1 20
        [⟨1, 10, [⟨20, false, none⟩], "s", "b", none, false, [], 5⟩,
         ⟨2, 10, [⟨30, false, none⟩], "s", "b", none, false, [], 5⟩]).map
        (fun c => c.lastMessageAt) = [5, 5] := by
  decide

/-- C7 amended: the conversation page produced by getConversations is sorted
by last-activity timestamp descending (non-strictly); the comparator reads
no other field, so no id tie break of any kind is applied. -/
theorem getConversations_sorted_desc (u page limit : Nat) (store : List Message) :
    List.Sorted convGe (getConversations u page limit store) := by
  unfold getConversations
  exact List.Pairwise.sublist
    ((List.take_sublist _ _).trans (List.drop_sublist _ _))
    (List.sorted_insertionSort convGe _)

/-- C8: getConversationMessages answers the not-found error exactly when the
set of thread messages visible to the user is empty, and otherwise returns
exactly that set (as a permutation of the filter) sorted by createdAt in
non-decreasing order. -/
theorem getConversationMessages_notFound_iff_and_sorted (u tid : Nat) (s : List Message) :
    (getConversationMessages u tid s = Except.error "Conversation not found"
        ↔ s.filter (fun m => threadVisible u tid m) = [])
    ∧ ∀ l, getConversationMessages u tid s = Except.ok l →
        l.Perm (s.filter (fun m => threadVisible u tid m)) ∧ List.Sorted msgLe l := by
  unfold getConversationMessages
  by_cases h : (List.insertionSort msgLe (s.filter (fun m => threadVisible u tid m))).isEmpty
  · have hnil : List.insertionSort msgLe (s.filter (fun m => threadVisible u tid m)) = [] :=
      List.isEmpty_iff.mp h
    have hfil : s.filter (fun m => threadVisible u tid m) = [] :=
      ((List.perm_insertionSort msgLe _).symm.trans (hnil ▸ List.Perm.refl _)).eq_nil
    constructor
    · simp [h, hfil]
    · intro l hl
      simp [h] at hl
  · have hfil : ¬(s.filter (fun m => threadVisible u tid m) = []) := by
      intro hc
      rw [hc] at h
      simp [List.insertionSort] at h
    constructor
    · simp [h, hfil]
    · intro l hl
      have : List.insertionSort msgLe (s.filter (fun m => threadVisible u tid m)) = l := by
        simpa [h] using hl
      subst this
      exact ⟨List.perm_insertionSort msgLe _, List.sorted_insertionSort msgLe _⟩

/-- C8 witness: on a one-message store whose message is the visible thread
root, getConversationMessages succeeds and the returned list is a
permutation of the visible filter and sorted. -/
theorem getConversationMessages_notFound_iff_and_sorted_witness :
    List.Perm [(⟨1, 1, [⟨2, false, none⟩], "s", "b", none, false, [], 0⟩ : Message)]
        ([(⟨1, 1, [⟨2, false, none⟩], "s", "b", none, false, [], 0⟩ : Message)].filter
          (fun m => threadVisible 1 1 m))
      ∧ List.Sorted msgLe [(⟨1, 1, [⟨2, false, none⟩], "s", "b", none, false, [], 0⟩ : Message)] :=
  (getConversationMessages_notFound_iff_and_sorted 1 1
      [⟨1, 1, [⟨2, false, none⟩], "s", "b", none, false, [], 0⟩]).2
    [⟨1, 1, [⟨2, false, none⟩], "s", "b", none, false, [], 0⟩] rfl

/-- C4 amended: sendMessage performs no threadId validation at all: whenever
the recipient, subject and body validations pass, the message is created and
appended with the supplied threadId stored verbatim, for ANY threadId value,
dangling or not (the store is never consulted about the thread reference). -/
theorem sendMessage_no_threadId_validation
    (actor : UserRec) (users : List UserRec) (projects : List ProjectRec)
    (recipients : List Nat) (subject body : String) (tid : Option Nat)
    (store : List Message) (newId now : Nat)
    (h1 : recipients.isEmpty = false)
    (h2 : (jsTrim subject == "") = false)
    (h3 : (jsTrim body == "") = false)
    (h4 : (recipients.filter (fun r =>
        !(((getAllowedRecipients actor users projects).map (fun x => x.id)).contains r))).isEmpty
      = true)
    (h5 : ((recipients.filter (fun r => r != actor.id)).eraseDups).isEmpty = false) :
    sendMessage actor users projects recipients subject body tid store newId now
      = (SendOutcome.created (mkMessage newId actor recipients subject body tid now),
         store ++ [mkMessage newId actor recipients subject body tid now]) := by
  unfold sendMessage
  simp only [h1, h2, h3, h4, h5, Bool.not_true, Bool.not_false, Bool.false_eq_true,
    eq_self_iff_true, ite_true, ite_false]

/-- C4 amended witness: an admin sending to one eligible recipient with the
dangling threadId 999 over an empty store succeeds and stores the message. -/
theorem sendMessage_no_threadId_validation_witness :
    (([2] : List Nat).isEmpty = false
      ∧ (jsTrim "s" == "") = false
      ∧ (jsTrim "b" == "") = false)
    ∧ sendMessage ⟨1, "admin", true⟩ [⟨1, "admin", true⟩, ⟨2, "contractor", true⟩] []
        [2] "s" "b" (some 999) [] 7 3
      = (SendOutcome.created (mkMessage 7 ⟨1, "admin", true⟩ [2] "s" "b" (some 999) 3),
         [] ++ [mkMessage 7 ⟨1, "admin", true⟩ [2] "s" "b" (some 999) 3]) :=
  ⟨⟨by decide, by decide, by decide⟩,
    sendMessage_no_threadId_validation ⟨1, "admin", true⟩
      [⟨1, "admin", true⟩, ⟨2, "contractor", true⟩] [] [2] "s" "b" (some 999) [] 7 3
      (by decide) (by decide) (by decide) (by decide) (by decide)⟩

/-- C6 amended: when the basic input validations pass, sendMessage answers
the 403 forbidden outcome exactly when some member of the FULL proposed
list, the actor included, is outside the allowed set (eligibility is checked
before the self id is removed), and the cannot-message-yourself validation
outcome exactly when every proposed recipient is allowed and nothing remains
after removing the actor. -/
theorem sendMessage_eligibility_before_self_removal
    (actor : UserRec) (users : List UserRec) (projects : List ProjectRec)
    (recipients : List Nat) (subject body : String) (tid : Option Nat)
    (store : List Message) (newId now : Nat)
    (h1 : recipients.isEmpty = false)
    (h2 : (jsTrim subject == "") = false)
    (h3 : (jsTrim body == "") = false) :
    ((sendMessage actor users projects recipients subject body tid store newId now).1
        = SendOutcome.forbidden "You are not allowed to message one or more of the selected recipients"
      ↔ (recipients.filter (fun r =>
          !(((getAllowedRecipients actor users projects).map (fun x => x.id)).contains r))).isEmpty
        = false)
    ∧ ((sendMessage actor users projects recipients subject body tid store newId now).1
        = SendOutcome.validation "You cannot send a message to yourself"
      ↔ (recipients.filter (fun r =>
          !(((getAllowedRecipients actor users projects).map (fun x => x.id)).contains r))).isEmpty
          = true
        ∧ ((recipients.filter (fun r => r != actor.id)).eraseDups).isEmpty = true) := by
  unfold sendMessage
  cases hinv : (recipients.filter (fun r =>
      !(((getAllowedRecipients actor users projects).map (fun x => x.id)).contains r))).isEmpty with
  | false =>
      simp only [h1, h2, h3, hinv, Bool.not_true, Bool.not_false, Bool.false_eq_true,
        eq_self_iff_true, ite_true, ite_false]
      exact ⟨trivial, iff_of_false (fun hc => SendOutcome.noConfusion hc) (fun hc => hc.1.elim)⟩
  | true =>
      cases huniq : ((recipients.filter (fun r => r != actor.id)).eraseDups).isEmpty with
      | true =>
          simp only [h1, h2, h3, hinv, huniq, Bool.not_true, Bool.not_false, Bool.false_eq_true,
            eq_self_iff_true, ite_true, ite_false]
          exact ⟨iff_of_false (fun hc => SendOutcome.noConfusion hc) (fun hc => by cases hc),
            Iff.intro (fun _ => ⟨trivial, trivial⟩) (fun _ => trivial)⟩
      | false =>
          simp only [h1, h2, h3, hinv, huniq, Bool.not_true, Bool.not_false, Bool.false_eq_true,
            eq_self_iff_true, ite_true, ite_false]
          exact ⟨iff_of_false (fun hc => SendOutcome.noConfusion hc) (fun hc => by cases hc),
            iff_of_false (fun hc => SendOutcome.noConfusion hc) (fun hc => hc.2.elim)⟩

/-- C6 amended witness: the characterization instantiated at the project
manager proposing themself plus one eligible admin. -/
theorem sendMessage_eligibility_before_self_removal_witness :
    (([30, 40] : List Nat).isEmpty = false
      ∧ (jsTrim "s" == "") = false
      ∧ (jsTrim "b" == "") = false)
    ∧ (((sendMessage ⟨30, "project_manager", true⟩
          [⟨30, "project_manager", true⟩, ⟨40, "admin", true⟩] []
          [30, 40] "s" "b" none [] 7 3).1
        = SendOutcome.forbidden "You are not allowed to message one or more of the selected recipients"
      ↔ (([30, 40] : List Nat).filter (fun r =>
          !(((getAllowedRecipients ⟨30, "project_manager", true⟩
              [⟨30, "project_manager", true⟩, ⟨40, "admin", true⟩] []).map
              (fun x => x.id)).contains r))).isEmpty = false)
    ∧ (((sendMessage ⟨30, "project_manager", true⟩
          [⟨30, "project_manager", true⟩, ⟨40, "admin", true⟩] []
          [30, 40] "s" "b" none [] 7 3).1
        = SendOutcome.validation "You cannot send a message to yourself"
      ↔ (([30, 40] : List Nat).filter (fun r =>
          !(((getAllowedRecipients ⟨30, "project_manager", true⟩
              [⟨30, "project_manager", true⟩, ⟨40, "admin", true⟩] []).map
              (fun x => x.id)).contains r))).isEmpty = true
        ∧ ((([30, 40] : List Nat).filter
            (fun r => r != (⟨30, "project_manager", true⟩ : UserRec).id)).eraseDups).isEmpty
          = true))) :=
  ⟨⟨by decide, by decide, by decide⟩,
    sendMessage_eligibility_before_self_removal ⟨30, "project_manager", true⟩
      [⟨30, "project_manager", true⟩, ⟨40, "admin", true⟩] [] [30, 40] "s" "b" none [] 7 3
      (by decide) (by decide) (by decide)⟩

/-- C10: every identity in the eligible recipient set computed by
getAllowedRecipients is an active user, for every actor role: each branch of
the source queries with an isActive true condition. -/
theorem getAllowedRecipients_all_active (u : UserRec) (users : List UserRec)
    (projects : List ProjectRec) :
    ∀ r ∈ getAllowedRecipients u users projects, r.isActive = true := by
  intro r hr
  unfold getAllowedRecipients at hr
  split at hr
  · exact (List.mem_filter.mp hr).2
  · split at hr
    · rcases List.mem_append.mp hr with h | h
      · have := (List.mem_filter.mp h).2
        simp only [Bool.and_eq_true] at this
        exact this.2
      · split at h
        · exact absurd h (List.not_mem_nil _)
        · have := (List.mem_filter.mp h).2
          simp only [Bool.and_eq_true] at this
          exact this.2
    · split at hr
      · rcases List.mem_append.mp hr with h | h
        · have := (List.mem_filter.mp h).2
          simp only [Bool.and_eq_true] at this
          exact this.2
        · split at h
          · exact absurd h (List.not_mem_nil _)
          · have := (List.mem_filter.mp h).2
            simp only [Bool.and_eq_true] at this
            exact this.2
      · exact absurd hr (List.not_mem_nil _)

/-- C10 witness: the active admin 40 is in the eligible set of the project
manager 30 and is active. -/
theorem getAllowedRecipients_all_active_witness :
    (⟨40, "admin", true⟩ : UserRec).isActive = true :=
  getAllowedRecipients_all_active ⟨30, "project_manager", true⟩
    [⟨30, "project_manager", true⟩, ⟨40, "admin", true⟩] [] ⟨40, "admin", true⟩ (by decide)

/-- Pushing a soft-delete marker changes no field other than deletedBy. -/
theorem view_pushDeleted (a t : Nat) (m : Message) : view (pushDeleted a t m) = view m := rfl

/-- Thread membership is insensitive to soft-delete markers. -/
theorem inThread_pushDeleted (tid a t : Nat) (m : Message) :
    inThread tid (pushDeleted a t m) = inThread tid m := rfl

/-- The find filter of deleteConversation is insensitive to markers. -/
theorem threadMember_pushDeleted (u tid a t : Nat) (m : Message) :
    threadMember u tid (pushDeleted a t m) = threadMember u tid m := rfl

/-- A marker pushed for one user does not change visibility for a different
user. -/
theorem visibleTo_pushDeleted_ne (v a t : Nat) (m : Message) (h : a ≠ v) :
    visibleTo v (pushDeleted a t m) = visibleTo v m := by
  have hb : (a == v) = false := by simp [h]
  simp [visibleTo, pushDeleted, List.any_append, hb]

/-- Pushing a second marker for the same user leaves every visibility test
unchanged. -/
theorem visibleTo_push_push (v a t1 t2 : Nat) (m : Message) :
    visibleTo v (pushDeleted a t2 (pushDeleted a t1 m)) = visibleTo v (pushDeleted a t1 m) := by
  simp [visibleTo, pushDeleted, List.any_append, Bool.or_assoc, Bool.or_self]

/-- The soft-delete update of one user preserves, message by message, both
the visibility test and the view of every message for any other user. -/
theorem frame_filter_applyDelete (B a t tid : Nat) (h : a ≠ B) :
    ∀ s : List Message,
      ((applyDelete a tid t s).filter (fun m => visibleTo B m)).map view
        = (s.filter (fun m => visibleTo B m)).map view
  | [] => rfl
  | m :: s => by
      have hv : visibleTo B (if inThread tid m = true then pushDeleted a t m else m)
          = visibleTo B m := by
        by_cases hin : inThread tid m = true
        · simp only [hin, ite_true]
          exact visibleTo_pushDeleted_ne B a t m h
        · simp [hin]
      have hw : view (if inThread tid m = true then pushDeleted a t m else m) = view m := by
        by_cases hin : inThread tid m = true <;> simp [hin, view_pushDeleted]
      simp only [applyDelete, List.map_cons, List.filter_cons, hv]
      cases hvb : visibleTo B m <;>
        simpa [hvb, hw] using frame_filter_applyDelete B a t tid h s

/-- The soft-delete update does not change which thread messages carry the
acting user as sender or recipient, hence not the emptiness test of the find. -/
theorem filter_threadMember_applyDelete (u a tid t : Nat) :
    ∀ s : List Message,
      ((applyDelete a tid t s).filter (fun m => threadMember u tid m)).isEmpty
        = (s.filter (fun m => threadMember u tid m)).isEmpty
  | [] => rfl
  | m :: s => by
      have hm : threadMember u tid (if inThread tid m = true then pushDeleted a t m else m)
          = threadMember u tid m := by
        by_cases hin : inThread tid m = true <;> simp [hin, threadMember_pushDeleted]
      simp only [applyDelete, List.map_cons, List.filter_cons, hm]
      cases h2 : threadMember u tid m
      · simpa [h2] using filter_threadMember_applyDelete u a tid t s
      · simp [h2]

/-- Applying the soft-delete update twice gives every message the same
visibility for every user as applying it once. -/
theorem applyDelete_twice_vis (v a tid t1 t2 : Nat) :
    ∀ s : List Message,
      (applyDelete a tid t2 (applyDelete a tid t1 s)).map (fun m => visibleTo v m)
        = (applyDelete a tid t1 s).map (fun m => visibleTo v m)
  | [] => rfl
  | m :: s => by
      have hstep : visibleTo v
          (if inThread tid (if inThread tid m = true then pushDeleted a t1 m else m) = true
            then pushDeleted a t2 (if inThread tid m = true then pushDeleted a t1 m else m)
            else (if inThread tid m = true then pushDeleted a t1 m else m))
          = visibleTo v (if inThread tid m = true then pushDeleted a t1 m else m) := by
        by_cases hin : inThread tid m = true
        · simp only [hin, ite_true, inThread_pushDeleted]
          exact visibleTo_push_push v a t1 t2 m
        · simp [hin]
      simp only [applyDelete, List.map_cons]
      rw [hstep]
      exact congrArg (List.cons _) (by
        simpa only [applyDelete] using applyDelete_twice_vis v a tid t1 t2 s)

/-- C9: soft deletion of a thread by one user leaves the sequence of
messages visible to any other user, together with everything those messages
show (every field except the delete markers), exactly unchanged, whatever
branch deleteConversation takes. -/
theorem deleteConversation_frame_other_user (actor : UserRec) (B tid now : Nat)
    (s : List Message) (h : actor.id ≠ B) :
    (((deleteConversation actor tid now s).2).filter (fun m => visibleTo B m)).map view
      = (s.filter (fun m => visibleTo B m)).map view := by
  unfold deleteConversation
  by_cases hrole : (actor.role == SUPER_ADMIN) = true
  · by_cases hemp : (s.filter (fun m => threadMember actor.id tid m)).isEmpty = true
    · simp [hrole, hemp]
    · simp only [hrole, hemp, ite_true, ite_false, eq_self_iff_true]
      simpa using frame_filter_applyDelete B actor.id now tid h s
  · simp [hrole]

/-- C9 witness: the super admin 1 soft-deleting thread 1 leaves the view of
user 2 over a one-message store unchanged. -/
theorem deleteConversation_frame_other_user_witness :
    (⟨1, "super_admin", true⟩ : UserRec).id ≠ 2
    ∧ (((deleteConversation ⟨1, "super_admin", true⟩ 1 9
          [⟨1, 1, [⟨2, false, none⟩], "s", "b", none, false, [], 0⟩]).2).filter
          (fun m => visibleTo 2 m)).map view
      = (([(⟨1, 1, [⟨2, false, none⟩], "s", "b", none, false, [], 0⟩ : Message)]).filter
          (fun m => visibleTo 2 m)).map view :=
  ⟨by decide,
    deleteConversation_frame_other_user ⟨1, "super_admin", true⟩ 2 1 9
      [⟨1, 1, [⟨2, false, none⟩], "s", "b", none, false, [], 0⟩] (by decide)⟩

/-- C5 amended: although the stored deletedBy list grows on every call,
running deleteConversation twice for the same actor and thread yields a
store in which every message has the same visibility for every user as
after running it once. -/
theorem deleteConversation_twice_visibility_eq (actor : UserRec) (tid t1 t2 v : Nat)
    (s : List Message) :
    ((deleteConversation actor tid t2 ((deleteConversation actor tid t1 s).2)).2).map
        (fun m => visibleTo v m)
      = ((deleteConversation actor tid t1 s).2).map (fun m => visibleTo v m) := by
  by_cases hrole : (actor.role == SUPER_ADMIN) = true
  · by_cases hemp : (s.filter (fun m => threadMember actor.id tid m)).isEmpty = true
    · simp [deleteConversation, hrole, hemp]
    · have hemp2 : ((applyDelete actor.id tid t1 s).filter
          (fun m => threadMember actor.id tid m)).isEmpty = false := by
        rw [filter_threadMember_applyDelete]
        cases hb : (s.filter (fun m => threadMember actor.id tid m)).isEmpty
        · rfl
        · exact absurd hb hemp
      simp only [deleteConversation, hrole, hemp, hemp2, ite_true, ite_false,
        eq_self_iff_true, Bool.false_eq_true]
      simpa using applyDelete_twice_vis v actor.id tid t1 t2 s
  · simp [deleteConversation, hrole]
